import Mathlib

/-!
Verification of the real-time chat relay in src/python-socket-io/app.py.

The Python program is embedded shallowly.  CPython dictionaries are
insertion-ordered association lists; dictionary keys occurring in the
program are either strings or the Python value None, so keys are
modelled as Option String.  Fallible Python code (KeyError, TypeError,
IndexError, AttributeError, NameError) is modelled with Except.
Behaviour of external collaborators (PyJWT, python-socketio) that the
repository calls into is modelled in clearly marked definitions.
-/

namespace WsChat

/-- Python runtime values occurring in the shared `messages_by_org`
store and in event payloads: None, strings, integers, lists, and
dictionaries keyed by a string or by None. -/
inductive Val where
  | pyNone : Val
  | pyStr : String → Val
  | pyInt : Int → Val
  | pyList : List Val → Val
  | pyDict : List (Option String × Val) → Val
deriving Repr

/-- Python exceptions that the embedded code can raise. -/
inductive PyErr where
  | keyError
  | typeError
  | indexError
  | attrError
  | nameError
deriving Repr, DecidableEq

/-- Dictionary read on an insertion-ordered association list
(CPython dict lookup: the first entry with the given key). -/
def aGet {κ α : Type} [DecidableEq κ] : List (κ × α) → κ → Option α
  | [], _ => none
  | (k, v) :: rest, q => if k = q then some v else aGet rest q

/-- Dictionary write: replace the value at the first entry holding the
key, or append a fresh entry at the end (CPython dict assignment
preserves insertion position of an existing key). -/
def aSet {κ α : Type} [DecidableEq κ] : List (κ × α) → κ → α → List (κ × α)
  | [], q, nv => [(q, nv)]
  | (k, v) :: rest, q, nv =>
      if k = q then (k, nv) :: rest else (k, v) :: aSet rest q nv

theorem aGet_aSet {κ α : Type} [DecidableEq κ] (l : List (κ × α)) (k q : κ) (v : α) :
    aGet (aSet l k v) q = if k = q then some v else aGet l q := by
  induction l with
  | nil =>
      by_cases h : k = q <;> simp [aSet, aGet, h]
  | cons kv rest ih =>
      obtain ⟨k0, v0⟩ := kv
      by_cases h0 : k0 = k
      · subst h0
        by_cases h : k0 = q <;> simp [aSet, aGet, h]
      · by_cases h : k0 = q
        · subst h
          have hk : ¬ k = k0 := fun hh => h0 hh.symm
          simp [aSet, aGet, h0, hk]
        · simp [aSet, aGet, h0, h, ih]

theorem aSet_eq_of_aGet {κ α : Type} [DecidableEq κ] {l : List (κ × α)} {k : κ} {v : α}
    (h : aGet l k = some v) : aSet l k v = l := by
  induction l with
  | nil => simp [aGet] at h
  | cons kv rest ih =>
      obtain ⟨k0, v0⟩ := kv
      by_cases h0 : k0 = k
      · subst h0
        simp [aGet] at h
        simp [aSet, h]
      · simp [aGet, h0] at h
        simp [aSet, h0, ih h]

theorem aGet_map {κ α β : Type} [DecidableEq κ] (l : List (κ × α)) (f : α → β) (k : κ) :
    aGet (l.map (fun kv => (kv.1, f kv.2))) k = (aGet l k).map f := by
  induction l with
  | nil => simp [aGet]
  | cons kv rest ih =>
      obtain ⟨k0, v0⟩ := kv
      by_cases h : k0 = k <;> simp [aGet, h, ih]

theorem aSet_map {κ α β : Type} [DecidableEq κ] (l : List (κ × α)) (f : α → β) (k : κ) (v : α) :
    aSet (l.map (fun kv => (kv.1, f kv.2))) k (f v)
      = (aSet l k v).map (fun kv => (kv.1, f kv.2)) := by
  induction l with
  | nil => simp [aSet]
  | cons kv rest ih =>
      obtain ⟨k0, v0⟩ := kv
      by_cases h : k0 = k <;> simp [aSet, h, ih]

/-- Python subscript `v[k]`: KeyError when the key is absent from a
dictionary; TypeError when the value subscripted with a string-or-None
key is not a dictionary (the embedded code only ever subscripts
dictionaries in reachable states). -/
def pyIndex (v : Val) (k : Option String) : Except PyErr Val :=
  match v with
  | .pyDict d =>
      match aGet d k with
      | some x => .ok x
      | none => .error .keyError
  | _ => .error .typeError

/-- Python membership test `k in v` on a dictionary.  On non-dictionary
values the embedding reports TypeError; the program only applies the
test to dictionaries in reachable states. -/
def pyContains (v : Val) (k : Option String) : Except PyErr Bool :=
  match v with
  | .pyDict d => .ok (aGet d k).isSome
  | _ => .error .typeError

/-- Python subscript assignment `v[k] = nv` on a dictionary. -/
def pySet (v : Val) (k : Option String) (nv : Val) : Except PyErr Val :=
  match v with
  | .pyDict d => .ok (.pyDict (aSet d k nv))
  | _ => .error .typeError

/-- app.py line 15: `SECRET_KEY = os.getenv("SECRET_KEY", "your_key")`
with the environment default. -/
def SECRET_KEY : String := "your_key"

/-- Decoded claim set of a token: subject identity and expiry instant
(seconds since epoch, as PyJWT reads the exp claim). -/
structure Claims where
  sub : String
  exp : Int
deriving Repr, DecidableEq

/-- Modelled from the spec: an opaque signed token as handled by the
external PyJWT library.  A token is either malformed (any string that
is not a well-formed JWT, including scheme words such as "Bearer") or
a payload (subject, expiry) signed with some key. -/
inductive Jwt where
  | malformed : Jwt
  | signed : String → Int → String → Jwt
deriving Repr, DecidableEq

/-- app.py lines 60-72, `decode_jwt_token`.  Modelled from the spec for
the external `jwt.decode` call: verification succeeds exactly when the
signing key equals the server secret and the expiry is still in the
future (PyJWT raises ExpiredSignatureError once `exp <= now`); every
failure is caught and returned as None. -/
def decode_jwt_token (now : Int) (t : Jwt) : Option Claims :=
  match t with
  | .malformed => none
  | .signed sub exp key =>
      if key = SECRET_KEY then
        if exp ≤ now then none else some ⟨sub, exp⟩
      else none

/-- app.py lines 30-34, class `ChatMessage`: text and sender are stored
as given (they may be Python None when absent from the payload), and
the timestamp is `timestamp or int(datetime.now().timestamp() * 1000)`:
the Python `or` falls through to the creation time both when the caller
passes None and when the caller passes the falsy integer 0. -/
structure ChatMessage where
  text : Option String
  sender : Option String
  timestamp : Int
deriving Repr, DecidableEq

/-- The `ChatMessage.__init__` constructor, app.py lines 31-34; `now` is
the creation instant in milliseconds since epoch. -/
def mkChatMessage (now : Int) (text sender : Option String) (timestamp : Option Int) :
    ChatMessage :=
  { text := text
    sender := sender
    timestamp :=
      match timestamp with
      | some t => if t = 0 then now else t
      | none => now }

/-- Embeds a possibly-None Python string as a value. -/
def valOfOptStr : Option String → Val
  | none => .pyNone
  | some s => .pyStr s

/-- app.py lines 36-41, `ChatMessage.to_dict`. -/
def ChatMessage.to_dict (m : ChatMessage) : Val :=
  .pyDict [(some "text", valOfOptStr m.text),
           (some "sender", valOfOptStr m.sender),
           (some "timestamp", .pyInt m.timestamp)]

/-- The process-wide store `messages_by_org` of app.py line 87: a
dictionary from organization id (a string, or Python None when the
payload lacked the field) to `{"chats": {chatId: {"messages": [...]}}}`. -/
abbrev PyDict := List (Option String × Val)

/-- app.py lines 190-194 and, identically, lines 210-214: the shared
block that lazily creates `messages_by_org[org]` as `{"chats": {}}` and
then `...["chats"][chat]` as `{"messages": []}`.  Both `join_room` and
`chat_message` contain this exact code; it is embedded once.  The reads
`messages_by_org[organization_id]["chats"]` are the unguarded Python
subscripts, so the embedding can raise on malformed stores. -/
def ensureRoom (st : PyDict) (org chat : Option String) : Except PyErr PyDict := do
  let st := if (aGet st org).isSome then st
            else aSet st org (.pyDict [(some "chats", .pyDict [])])
  let orgV ← pyIndex (.pyDict st) org
  let chats ← pyIndex orgV (some "chats")
  let b ← pyContains chats chat
  if b then
    pure st
  else do
    let chats2 ← pySet chats chat (.pyDict [(some "messages", .pyList [])])
    let orgV2 ← pySet orgV (some "chats") chats2
    pure (aSet st org orgV2)

/-- app.py line 219:
`messages_by_org[organization_id]["chats"][chat_id]["messages"].append(message_dict)`.
Each subscript is the unguarded Python read; calling `.append` on a
non-list raises AttributeError.  The in-place list mutation is written
back along the access path, which is faithful because distinct paths in
the store never alias the same object (every nested dictionary is
created fresh by the handlers). -/
def appendMsg (st : PyDict) (org chat : Option String) (msgDict : Val) :
    Except PyErr PyDict := do
  let orgV ← pyIndex (.pyDict st) org
  let chats ← pyIndex orgV (some "chats")
  let chatV ← pyIndex chats chat
  let msgs ← pyIndex chatV (some "messages")
  match msgs with
  | .pyList xs => do
      let chatV2 ← pySet chatV (some "messages") (.pyList (xs ++ [msgDict]))
      let chats2 ← pySet chats chat chatV2
      let orgV2 ← pySet orgV (some "chats") chats2
      pure (aSet st org orgV2)
  | _ => .error .attrError

/-- Payload of the `join_room` and `chat_message` events, app.py lines
183-184 and 202-205: `data.get(...)` yields the field value or Python
None when the key is absent. -/
structure EventData where
  organizationId : Option String
  chatId : Option String
  message : Option String
  sender : Option String
deriving Repr, DecidableEq

/-- Python f-string rendering of a possibly-None field, as in
`f"{organization_id}:{chat_id}"` (None prints as "None"). -/
def pyFmt : Option String → String
  | none => "None"
  | some s => s

/-- app.py lines 185 and 206: `room_id = f"{organization_id}:{chat_id}"`. -/
def room_id (org chat : Option String) : String :=
  pyFmt org ++ ":" ++ pyFmt chat

/-- The store effect of `chat_message`, app.py lines 199-219: read the
payload fields, lazily create the room entry, construct a ChatMessage
with no explicit timestamp, and append its dictionary to the room's
message list.  Returns the new store and the appended dictionary. -/
def chat_message_store (now : Int) (st : PyDict) (d : EventData) :
    Except PyErr (PyDict × Val) := do
  let st2 ← ensureRoom st d.organizationId d.chatId
  let msgDict := (mkChatMessage now d.message d.sender none).to_dict
  let st3 ← appendMsg st2 d.organizationId d.chatId msgDict
  pure (st3, msgDict)

/-! ### Canonical form of the store

Every store reachable from the empty `messages_by_org` dictionary is the
image under `reify` of a canonical state: an association list from
organization key to an association list from chat key to a message
list.  This canonical form is the structural invariant of claim C10 and
the vehicle for the history theorem of claim C2. -/

/-- Canonical store: organization key to chats, chat key to messages. -/
abbrev CanSt := List (Option String × List (Option String × List Val))

/-- Reifies one chat entry as the Python value `{"messages": [...]}`. -/
def reifyChat (msgs : List Val) : Val :=
  .pyDict [(some "messages", .pyList msgs)]

/-- Reifies one organization entry as `{"chats": {...}}`. -/
def reifyOrg (chats : List (Option String × List Val)) : Val :=
  .pyDict [(some "chats", .pyDict (chats.map (fun kv => (kv.1, reifyChat kv.2))))]

/-- Reifies a canonical store as the concrete `messages_by_org` value. -/
def reify (c : CanSt) : PyDict :=
  c.map (fun kv => (kv.1, reifyOrg kv.2))

/-- Canonical effect of the lazy-creation block (app.py 190-194 and
210-214). -/
def canEnsure (c : CanSt) (org chat : Option String) : CanSt :=
  let c1 := if (aGet c org).isSome then c else aSet c org []
  let chats := (aGet c1 org).getD []
  if (aGet chats chat).isSome then c1 else aSet c1 org (aSet chats chat [])

/-- Canonical effect of the append on line 219. -/
def canAppend (c : CanSt) (org chat : Option String) (m : Val) : CanSt :=
  match aGet c org with
  | some chats =>
      match aGet chats chat with
      | some msgs => aSet c org (aSet chats chat (msgs ++ [m]))
      | none => c
  | none => c

/-- Canonical effect of the whole `chat_message` store update. -/
def canMsgStep (now : Int) (c : CanSt) (d : EventData) : CanSt :=
  canAppend (canEnsure c d.organizationId d.chatId) d.organizationId d.chatId
    ((mkChatMessage now d.message d.sender none).to_dict)

/-- The message list recorded for a room in a canonical store (empty if
the room was never touched). -/
def canMsgs (c : CanSt) (org chat : Option String) : List Val :=
  match aGet c org with
  | some chats => (aGet chats chat).getD []
  | none => []

theorem aGet_reify (c : CanSt) (k : Option String) :
    aGet (reify c) k = (aGet c k).map reifyOrg := by
  simpa [reify] using aGet_map c reifyOrg k

theorem reify_aSet (c : CanSt) (org : Option String)
    (chats : List (Option String × List Val)) :
    aSet (reify c) org (reifyOrg chats) = reify (aSet c org chats) := by
  simpa [reify] using aSet_map c reifyOrg org chats

theorem reifyOrg_aSet (chats : List (Option String × List Val)) (chat : Option String)
    (msgs : List Val) :
    aSet (chats.map (fun kv => (kv.1, reifyChat kv.2))) chat (reifyChat msgs)
      = (aSet chats chat msgs).map (fun kv => (kv.1, reifyChat kv.2)) :=
  aSet_map chats reifyChat chat msgs

theorem ensureRoom_reify (c : CanSt) (org chat : Option String) :
    ensureRoom (reify c) org chat = .ok (reify (canEnsure c org chat)) := by
  cases h : aGet c org with
  | none =>
      have h1 : aGet (reify c) org = none := by rw [aGet_reify, h]; rfl
      have h2 : aSet (reify c) org (Val.pyDict [(some "chats", Val.pyDict [])])
          = reify (aSet c org []) := by
        simpa [reifyOrg] using reify_aSet c org []
      have h3 : aGet (aSet c org ([] : List (Option String × List Val))) org
          = some [] := by
        rw [aGet_aSet]; simp
      have h4 : aGet (reify (aSet c org [])) org = some (reifyOrg []) := by
        rw [aGet_reify, h3]; rfl
      have h5 : aSet (reify (aSet c org [])) org (reifyOrg (aSet [] chat []))
          = reify (aSet (aSet c org []) org (aSet [] chat [])) :=
        reify_aSet (aSet c org []) org (aSet [] chat [])
      simp only [ensureRoom, bind, Except.bind, h1, Option.isSome_none,
        Bool.false_eq_true, if_false, h2, pyIndex, h4, reifyOrg, List.map_nil,
        aGet, reduceIte, pyContains, pySet, aSet, pure, Except.pure]
      simp only [canEnsure, h, Option.isSome_none, Bool.false_eq_true, if_false,
        h3, Option.getD_some, aGet, reduceIte]
      rw [← h5]
      simp [reifyOrg, reifyChat, aSet]
  | some chats =>
      have h1 : aGet (reify c) org = some (reifyOrg chats) := by
        rw [aGet_reify, h]; rfl
      simp only [ensureRoom, bind, Except.bind, h1, Option.isSome_some, if_true,
        pyIndex, reifyOrg, aGet, reduceIte, pyContains, aGet_map]
      cases hc : aGet chats chat with
      | some msgs =>
          simp only [hc, Option.map_some, Option.isSome_some, if_true, pure, Except.pure,
            canEnsure, h, Option.getD_some, Except.ok.injEq]
          rfl
      | none =>
          have h5 : aSet (reify c) org (reifyOrg (aSet chats chat []))
              = reify (aSet c org (aSet chats chat [])) :=
            reify_aSet c org (aSet chats chat [])
          have h6 := reifyOrg_aSet chats chat []
          simp only [hc, Option.map_none, Option.isSome_none, Bool.false_eq_true,
            if_false, pySet, aSet, pure, Except.pure, Except.ok.injEq]
          simp only [canEnsure, h, Option.isSome_some, if_true, Option.getD_some, hc,
            Option.isSome_none, Bool.false_eq_true, if_false]
          rw [← h5]
          simp only [reifyOrg, reifyChat] at h6 ⊢
          rw [← h6]
          simp [reifyChat, aSet]

theorem appendMsg_reify (c : CanSt) {org chat : Option String}
    {chats : List (Option String × List Val)} {msgs : List Val} (m : Val)
    (h : aGet c org = some chats) (hc : aGet chats chat = some msgs) :
    appendMsg (reify c) org chat m
      = .ok (reify (aSet c org (aSet chats chat (msgs ++ [m])))) := by
  have h1 : aGet (reify c) org = some (reifyOrg chats) := by
    rw [aGet_reify, h]; rfl
  have h2 : aGet (chats.map (fun kv => (kv.1, reifyChat kv.2))) chat
      = some (reifyChat msgs) := by
    rw [aGet_map, hc]; rfl
  have h5 := reify_aSet c org (aSet chats chat (msgs ++ [m]))
  have h6 := reifyOrg_aSet chats chat (msgs ++ [m])
  simp only [reifyChat] at h2
  simp only [reifyOrg, reifyChat] at h5 h6
  simp only [appendMsg, bind, Except.bind, pyIndex, h1, reifyOrg, reifyChat, aGet,
    reduceIte, h2, pySet, aSet, pure, Except.pure]
  rw [h6, h5]

theorem canEnsure_get (c : CanSt) (org chat : Option String) :
    ∃ chats msgs, aGet (canEnsure c org chat) org = some chats ∧
      aGet chats chat = some msgs := by
  cases h : aGet c org with
  | none =>
      refine ⟨aSet [] chat [], [], ?_, ?_⟩
      · simp [canEnsure, h, aGet_aSet, aGet, aSet]
      · simp [aSet, aGet]
  | some chats =>
      cases hc : aGet chats chat with
      | some msgs =>
          refine ⟨chats, msgs, ?_, hc⟩
          simp [canEnsure, h, hc]
      | none =>
          refine ⟨aSet chats chat [], [], ?_, ?_⟩
          · simp [canEnsure, h, hc, aGet_aSet]
          · simp [aGet_aSet]

theorem canMsgs_canEnsure (c : CanSt) (org chat o ch : Option String) :
    canMsgs (canEnsure c org chat) o ch = canMsgs c o ch := by
  cases h : aGet c org with
  | none =>
      by_cases ho : org = o
      · subst ho
        by_cases hch : chat = ch
        · subst hch
          simp [canEnsure, canMsgs, h, aGet_aSet, aGet, aSet]
        · simp [canEnsure, canMsgs, h, aGet_aSet, aGet, aSet, hch]
      · simp [canEnsure, canMsgs, h, aGet_aSet, aGet, aSet, ho]
  | some chats =>
      cases hc : aGet chats chat with
      | some msgs => simp [canEnsure, canMsgs, h, hc]
      | none =>
          by_cases ho : org = o
          · subst ho
            by_cases hch : chat = ch
            · subst hch
              simp [canEnsure, canMsgs, h, hc, aGet_aSet, aSet, aGet]
            · simp [canEnsure, canMsgs, h, hc, aGet_aSet, aSet, aGet, hch]
          · simp [canEnsure, canMsgs, h, hc, aGet_aSet, ho]

theorem canMsgs_canMsgStep (now : Int) (c : CanSt) (d : EventData)
    (o ch : Option String) :
    canMsgs (canMsgStep now c d) o ch
      = canMsgs c o ch ++
        (if d.organizationId = o ∧ d.chatId = ch then
          [(mkChatMessage now d.message d.sender none).to_dict] else []) := by
  obtain ⟨chats1, msgs1, hg, hgc⟩ := canEnsure_get c d.organizationId d.chatId
  unfold canMsgStep canAppend
  simp only [hg, hgc]
  by_cases ho : d.organizationId = o
  · subst ho
    have hmsgs : canMsgs c d.organizationId ch = (aGet chats1 ch).getD [] := by
      rw [← canMsgs_canEnsure c d.organizationId d.chatId d.organizationId ch]
      unfold canMsgs
      simp only [hg]
    by_cases hch : d.chatId = ch
    · subst hch
      rw [hmsgs]
      simp [canMsgs, aGet_aSet, hgc]
    · rw [hmsgs]
      simp [canMsgs, aGet_aSet, hch]
  · have hb := canMsgs_canEnsure c d.organizationId d.chatId o ch
    unfold canMsgs at hb ⊢
    rw [aGet_aSet, if_neg ho]
    simp only [ho, false_and, if_false, List.append_nil]
    exact hb

theorem chat_message_store_reify (now : Int) (c : CanSt) (d : EventData) :
    chat_message_store now (reify c) d
      = .ok (reify (canMsgStep now c d),
             (mkChatMessage now d.message d.sender none).to_dict) := by
  obtain ⟨chats1, msgs1, hg, hgc⟩ := canEnsure_get c d.organizationId d.chatId
  unfold chat_message_store
  rw [ensureRoom_reify]
  simp only [bind, Except.bind]
  rw [appendMsg_reify (canEnsure c d.organizationId d.chatId)
    ((mkChatMessage now d.message d.sender none).to_dict) hg hgc]
  simp only [pure, Except.pure]
  unfold canMsgStep canAppend
  simp only [hg, hgc]

/-! ### Connection-level state: sessions, rooms, the connect handler,
the event handlers and the dispatcher -/

/-- The server-side mutable state: the `messages_by_org` store (app.py
line 87), the session store written by `sio.save_session` (line 154),
the room membership registry maintained by `sio.enter_room` (line 187),
and the set of live connections.  Sessions and rooms live inside the
external socketio server; their operations are modelled from the spec
where marked. -/
structure ServerState where
  store : PyDict
  sessions : List (String × Jwt)
  rooms : List (String × List String)
  connected : List String

/-- State of a freshly started process: every structure empty. -/
def initialState : ServerState :=
  { store := [], sessions := [], rooms := [], connected := [] }

/-- The authentication payload of the connect handshake, app.py line
140: a dictionary whose `token` field, when present, is the string
`"<scheme> <value>"`.  The field is modelled as the list of its
space-split words (the result of Python `token.split(" ")`), each word
being a candidate token; an absent field is None.  An empty token
string is falsy in Python and is modelled as an absent field. -/
structure AuthPayload where
  token : Option (List Jwt)

/-- app.py lines 137-159, the `connect` handler: reject when the auth
dictionary is missing (the `auth.get` AttributeError is caught by the
bare except), when no token field is present, when the split has no
second word (IndexError, caught), or when `decode_jwt_token` fails;
otherwise store `{'token': token}` in the session (via the external
`sio.save_session`) and accept.  Returns the state plus True for
accepted, False for `ConnectionRefusedError`. -/
def connect (now : Int) (st : ServerState) (sid : String) (auth : Option AuthPayload) :
    ServerState × Bool :=
  match auth with
  | none => (st, false)
  | some a =>
      match a.token with
      | none => (st, false)
      | some words =>
          match words[1]? with
          | none => (st, false)
          | some tok =>
              match decode_jwt_token now tok with
              | none => (st, false)
              | some _ =>
                  ({ st with
                      sessions := aSet st.sessions sid tok
                      connected :=
                        if sid ∈ st.connected then st.connected
                        else st.connected ++ [sid] }, true)

/-- Modelled from the spec: `sio.enter_room(sid, room_id)` of the
external socketio server (app.py line 187).  Membership is a set: a
connection already in the room is not added twice. -/
def enter_room (rooms : List (String × List String)) (sid room : String) :
    List (String × List String) :=
  let members := (aGet rooms room).getD []
  aSet rooms room (if sid ∈ members then members else members ++ [sid])

/-- app.py lines 180-197, the `join_room` handler: read the payload
fields (AttributeError when the payload is not a dictionary, re-raised
by the except clause), enter the socketio room, then run the
lazy-creation block on the store. -/
def join_room (st : ServerState) (sid : String) (data : Option EventData) :
    Except PyErr ServerState :=
  match data with
  | none => .error .attrError
  | some d => do
      let rooms := enter_room st.rooms sid (room_id d.organizationId d.chatId)
      let store ← ensureRoom st.store d.organizationId d.chatId
      pure { st with rooms := rooms, store := store }

/-- Modelled from the spec: the broadcast fan-out of
`sio.emit("new_message", message_dict, room=room_id)` (app.py line 220).
One delivery attempt is made to every current member of the room, in
membership order; `fails` says which individual sends fail, and a
failed send neither removes other attempts nor reports anything to the
caller.  Each pair is (connection id, delivery succeeded). -/
def publish (members : List String) (fails : String → Bool) : List (String × Bool) :=
  members.map (fun conn => (conn, ! fails conn))

/-- app.py lines 199-223, the `chat_message` handler: read the payload
fields, run the store update, then broadcast the message dictionary to
the current members of `room_id`.  Returns the new state, the message
dictionary and the per-member delivery attempts. -/
def chat_message (now : Int) (st : ServerState) (data : Option EventData)
    (fails : String → Bool) :
    Except PyErr (ServerState × Val × List (String × Bool)) :=
  match data with
  | none => .error .attrError
  | some d => do
      let (store, msgDict) ← chat_message_store now st.store d
      let deliveries :=
        publish ((aGet st.rooms (room_id d.organizationId d.chatId)).getD []) fails
      pure ({ st with store := store }, msgDict, deliveries)

/-- Outcome of dispatching one inbound event. -/
inductive Outcome where
  | handled
  | handlerRaised (e : PyErr)
  | catchAllRaised (e : PyErr)
deriving Repr, DecidableEq

/-- The event dispatch of the socketio server for inbound events on an
authenticated connection, app.py lines 161-223.  Modelled from the
spec for the routing of the external server: an event is routed to its
registered handler when one exists (`join_room`, `chat_message`), and
only events with no registered handler reach the catch-all handler
`@sio.on('*')`.  The catch-all itself (lines 161-178) first evaluates
`event in INTERNAL_EVENTS`; the name INTERNAL_EVENTS is not defined
anywhere in the program, so this line raises NameError outside the
try block: the exception propagates to the server (which logs it), no
session is read, no token is re-validated and no disconnect happens.
A handler that raises leaves the state of this model unchanged, which
is faithful for every raise reachable from a well-formed state (those
raises happen before any mutation). -/
def dispatch (now : Int) (st : ServerState) (sid : String) (event : String)
    (data : Option EventData) (fails : String → Bool) : ServerState × Outcome :=
  if event = "join_room" then
    match join_room st sid data with
    | .ok st2 => (st2, .handled)
    | .error e => (st, .handlerRaised e)
  else if event = "chat_message" then
    match chat_message now st data fails with
    | .ok (st2, _, _) => (st2, .handled)
    | .error e => (st, .handlerRaised e)
  else
    (st, .catchAllRaised .nameError)

/-! ### The HTTP query interface -/

/-- Result of an HTTP request: a 200 body, an HTTPException raised by
the handler, or an exception that escapes the handler (FastAPI turns it
into a 500 response). -/
inductive HttpResult where
  | ok (body : Val)
  | httpError (status : Nat) (detail : String)
  | raised (e : PyErr)

/-- app.py lines 103-117, `get_chat`: a missing (or empty, hence falsy)
Authorization header raises HTTPException 401; the header value is
split on spaces and word [1] is taken outside any try block, so a
header with no second word raises an uncaught IndexError; a token that
fails `decode_jwt_token` raises HTTPException 401; then
`organization_id in messages_by_org and chat_id in
messages_by_org[organization_id]["chats"]` guards returning the room
dictionary, with `{"messages": []}` otherwise.  The header is modelled
like the connect token: the list of space-split words. -/
def get_chat (now : Int) (st : PyDict) (authHeader : Option (List Jwt))
    (organization_id chat_id : String) : HttpResult :=
  match authHeader with
  | none => .httpError 401 "Token not found"
  | some words =>
      match words[1]? with
      | none => .raised .indexError
      | some tok =>
          match decode_jwt_token now tok with
          | none => .httpError 401 "Invalid token"
          | some _ =>
              match aGet st (some organization_id) with
              | none => .ok (.pyDict [(some "messages", .pyList [])])
              | some orgV =>
                  match pyIndex orgV (some "chats") with
                  | .error e => .raised e
                  | .ok chats =>
                      match pyContains chats (some chat_id) with
                      | .error e => .raised e
                      | .ok true =>
                          match pyIndex chats (some chat_id) with
                          | .error e => .raised e
                          | .ok body => .ok body
                      | .ok false => .ok (.pyDict [(some "messages", .pyList [])])

/-- app.py lines 119-133, `get_organization`: same authentication
steps, then the whole organization entry, or `{"chats": {}}` when the
organization is unknown. -/
def get_organization (now : Int) (st : PyDict) (authHeader : Option (List Jwt))
    (organization_id : String) : HttpResult :=
  match authHeader with
  | none => .httpError 401 "Token not found"
  | some words =>
      match words[1]? with
      | none => .raised .indexError
      | some tok =>
          match decode_jwt_token now tok with
          | none => .httpError 401 "Invalid token"
          | some _ =>
              match aGet st (some organization_id) with
              | some orgV => .ok orgV
              | none => .ok (.pyDict [(some "chats", .pyDict [])])

/-! ### Traces of store operations -/

/-- One store-mutating event: a `join_room` payload or a `chat_message`
payload with the dispatch instant of the latter. -/
inductive Op where
  | join (d : EventData)
  | msg (now : Int) (d : EventData)

/-- Effect of one event on the store.  A raising handler leaves the
store unchanged; from well-formed states the handlers never raise
(proved below), so the branch is never taken on reachable states. -/
def stepStore (st : PyDict) (op : Op) : PyDict :=
  match op with
  | .join d =>
      match ensureRoom st d.organizationId d.chatId with
      | .ok st2 => st2
      | .error _ => st
  | .msg now d =>
      match chat_message_store now st d with
      | .ok (st2, _) => st2
      | .error _ => st

/-- The store after a sequence of handled events, starting from a
given store. -/
def runTrace (st : PyDict) (ops : List Op) : PyDict :=
  ops.foldl stepStore st

/-- Whether the store effect of an event succeeds without raising. -/
def stepOk (st : PyDict) (op : Op) : Prop :=
  match op with
  | .join d => ∃ st2, ensureRoom st d.organizationId d.chatId = .ok st2
  | .msg now d => ∃ r, chat_message_store now st d = .ok r

/-- The message list stored for a room, read along the path
`messages_by_org[org]["chats"][chat]["messages"]`, with the empty list
when the path does not exist.  This is the projection the theorems
compare against the event history. -/
def msgsAt (st : PyDict) (org chat : Option String) : List Val :=
  match aGet st org with
  | some (.pyDict orgE) =>
      match aGet orgE (some "chats") with
      | some (.pyDict chats) =>
          match aGet chats chat with
          | some (.pyDict chatE) =>
              match aGet chatE (some "messages") with
              | some (.pyList xs) => xs
              | _ => []
          | _ => []
      | _ => []
  | _ => []

/-- The message dictionaries that the `chat_message` events of a trace
append for one room, in trace order. -/
def expectedMsgs (ops : List Op) (org chat : Option String) : List Val :=
  ops.filterMap (fun op =>
    match op with
    | .msg now d =>
        if d.organizationId = org ∧ d.chatId = chat then
          some (mkChatMessage now d.message d.sender none).to_dict
        else none
    | .join _ => none)

/-- Canonical effect of one event. -/
def canStep (c : CanSt) (op : Op) : CanSt :=
  match op with
  | .join d => canEnsure c d.organizationId d.chatId
  | .msg now d => canMsgStep now c d

theorem stepStore_reify (c : CanSt) (op : Op) :
    stepStore (reify c) op = reify (canStep c op) := by
  cases op with
  | join d => simp [stepStore, canStep, ensureRoom_reify]
  | msg now d => simp [stepStore, canStep, chat_message_store_reify]

theorem runTrace_reify (c : CanSt) (ops : List Op) :
    runTrace (reify c) ops = reify (ops.foldl canStep c) := by
  induction ops generalizing c with
  | nil => rfl
  | cons op rest ih =>
      show runTrace (stepStore (reify c) op) rest = _
      rw [stepStore_reify, ih]
      rfl

theorem msgsAt_reify (c : CanSt) (org chat : Option String) :
    msgsAt (reify c) org chat = canMsgs c org chat := by
  unfold msgsAt canMsgs
  cases h : aGet c org with
  | none =>
      have h1 : aGet (reify c) org = none := by rw [aGet_reify, h]; rfl
      rw [h1]
  | some chats =>
      have h1 : aGet (reify c) org = some (reifyOrg chats) := by
        rw [aGet_reify, h]; rfl
      rw [h1]
      simp only [reifyOrg, aGet, reduceIte, aGet_map]
      cases hc : aGet chats chat with
      | none => simp
      | some msgs => simp [reifyChat, aGet]

theorem canMsgs_foldl (ops : List Op) (c : CanSt) (org chat : Option String) :
    canMsgs (ops.foldl canStep c) org chat
      = canMsgs c org chat ++ expectedMsgs ops org chat := by
  induction ops generalizing c with
  | nil => simp [expectedMsgs]
  | cons op rest ih =>
      show canMsgs (rest.foldl canStep (canStep c op)) org chat = _
      rw [ih]
      cases op with
      | join d =>
          simp [canStep, canMsgs_canEnsure, expectedMsgs, List.filterMap_cons]
      | msg now d =>
          simp only [canStep, canMsgs_canMsgStep, expectedMsgs, List.filterMap_cons]
          by_cases hif : d.organizationId = org ∧ d.chatId = chat
          · simp [hif]
          · simp [hif]

/-! ### Claim theorems -/

/-- Demonstration trace used by concrete instantiations: one join and
two messages into room (org1, chat1). -/
def demoOps : List Op :=
  [Op.join ⟨some "org1", some "chat1", none, none⟩,
   Op.msg 5 ⟨some "org1", some "chat1", some "hi", some "A"⟩,
   Op.msg 7 ⟨some "org1", some "chat1", some "yo", some "B"⟩]

/-- Server state for claim C1: connection "s1" is live and its session
holds a token signed with the server secret that expired at instant 10. -/
def c1State : ServerState :=
  { store := [], sessions := [("s1", Jwt.signed "john_doe" 10 SECRET_KEY)],
    rooms := [], connected := ["s1"] }

/-- Claim C1: the claim says that every inbound event outside the
allow-list is re-validated against the session before any handler runs,
and that a failed re-validation force-disconnects and drops the event.
The code does not do this: python-socketio routes an event to its
registered handler and only handler-less events reach the catch-all,
so `chat_message` and `join_room` are never re-validated; moreover the
catch-all itself evaluates the undefined name INTERNAL_EVENTS and dies
with NameError before reading the session.  At instant 100 the session
token of "s1" (expiry 10) no longer validates, yet dispatching a
`chat_message` event returns `handled`, leaves "s1" connected, and
appends and broadcasts the message. -/
theorem c1_expired_token_event_still_handled :
    decode_jwt_token 100 (Jwt.signed "john_doe" 10 SECRET_KEY) = none ∧
    (dispatch 100 c1State "s1" "chat_message"
        (some ⟨some "org1", some "chat1", some "hi", some "A"⟩) (fun _ => false)).2
      = Outcome.handled ∧
    (dispatch 100 c1State "s1" "chat_message"
        (some ⟨some "org1", some "chat1", some "hi", some "A"⟩) (fun _ => false)).1.connected
      = ["s1"] ∧
    msgsAt (dispatch 100 c1State "s1" "chat_message"
        (some ⟨some "org1", some "chat1", some "hi", some "A"⟩) (fun _ => false)).1.store
        (some "org1") (some "chat1")
      = [(mkChatMessage 100 (some "hi") (some "A") none).to_dict] :=
  ⟨rfl, rfl, rfl, rfl⟩

/-- Claim C2: starting from the empty store, after any sequence of
`join_room` and `chat_message` store events, the message list recorded
for a room is exactly the message dictionaries of the `chat_message`
events that targeted that room, in trace order (so its length is their
count); and every event of the trace is handled successfully, so no
operation of the trace removes or reorders entries.  The read paths
(`get_chat`, `get_organization`) take no state, and `connect` and the
`disconnect` handler never touch the store. -/
theorem c2_history_matches_trace (ops : List Op) (org chat : Option String) :
    msgsAt (runTrace [] ops) org chat = expectedMsgs ops org chat ∧
    (∀ pre op post, ops = pre ++ op :: post → stepOk (runTrace [] pre) op) := by
  constructor
  · rw [show (([] : PyDict)) = reify [] from rfl, runTrace_reify, msgsAt_reify,
      canMsgs_foldl]
    simp [canMsgs, aGet]
  · intro pre op post _
    rw [show (([] : PyDict)) = reify [] from rfl, runTrace_reify]
    cases op with
    | join d => exact ⟨_, ensureRoom_reify _ _ _⟩
    | msg now d => exact ⟨_, chat_message_store_reify now _ d⟩

/-- Concrete instantiation of the history theorem on `demoOps`. -/
theorem c2_witness :
    (msgsAt (runTrace [] demoOps) (some "org1") (some "chat1")
      = [(mkChatMessage 5 (some "hi") (some "A") none).to_dict,
         (mkChatMessage 7 (some "yo") (some "B") none).to_dict]) ∧
    stepOk (runTrace [] [Op.join ⟨some "org1", some "chat1", none, none⟩])
      (Op.msg 5 ⟨some "org1", some "chat1", some "hi", some "A"⟩) := by
  constructor
  · rw [(c2_history_matches_trace demoOps (some "org1") (some "chat1")).1]
    rfl
  · exact (c2_history_matches_trace demoOps (some "org1") (some "chat1")).2
      [Op.join ⟨some "org1", some "chat1", none, none⟩]
      (Op.msg 5 ⟨some "org1", some "chat1", some "hi", some "A"⟩)
      [Op.msg 7 ⟨some "org1", some "chat1", some "yo", some "B"⟩] rfl

/-- Claim C10: every store reachable from the empty `messages_by_org`
by `join_room` and `chat_message` store events is the reification of a
canonical state, i.e. every organization entry is a dictionary holding
the key "chats" whose entries are dictionaries holding the key
"messages" bound to a list; and on such stores the unguarded indexing
`messages_by_org[organization_id]["chats"]` inside `get_chat` never
raises (with passing authentication the request returns a 200 body). -/
theorem c10_store_shape_invariant :
    (∀ ops : List Op, ∃ c : CanSt, runTrace [] ops = reify c) ∧
    (∀ (c : CanSt) (now : Int) (words : List Jwt) (tok : Jwt) (p : Claims)
        (org chat : String),
        words[1]? = some tok → decode_jwt_token now tok = some p →
        ∃ body, get_chat now (reify c) (some words) org chat = .ok body) := by
  constructor
  · intro ops
    exact ⟨ops.foldl canStep [],
      by rw [show (([] : PyDict)) = reify [] from rfl, runTrace_reify]⟩
  · intro c now words tok p org chat h1 h2
    cases hg : aGet c (some org) with
    | none =>
        refine ⟨.pyDict [(some "messages", .pyList [])], ?_⟩
        have hgr : aGet (reify c) (some org) = none := by rw [aGet_reify, hg]; rfl
        simp [get_chat, h1, h2, hgr]
    | some chats =>
        have hgr : aGet (reify c) (some org) = some (reifyOrg chats) := by
          rw [aGet_reify, hg]; rfl
        cases hc : aGet chats (some chat) with
        | none =>
            refine ⟨.pyDict [(some "messages", .pyList [])], ?_⟩
            have hcm : aGet (chats.map (fun kv => (kv.1, reifyChat kv.2))) (some chat)
                = none := by rw [aGet_map, hc]; rfl
            simp [get_chat, h1, h2, hgr, reifyOrg, pyIndex, aGet, pyContains, hcm]
        | some msgs =>
            refine ⟨reifyChat msgs, ?_⟩
            have hcm : aGet (chats.map (fun kv => (kv.1, reifyChat kv.2))) (some chat)
                = some (reifyChat msgs) := by rw [aGet_map, hc]; rfl
            simp [get_chat, h1, h2, hgr, reifyOrg, pyIndex, aGet, pyContains, hcm]

/-- Concrete instantiation of the shape invariant. -/
theorem c10_witness :
    (∃ c : CanSt, runTrace [] demoOps = reify c) ∧
    (∃ body, get_chat 0 (reify []) (some [Jwt.malformed, Jwt.signed "u" 9 SECRET_KEY])
        "org1" "chat1" = .ok body) :=
  ⟨c10_store_shape_invariant.1 demoOps,
   c10_store_shape_invariant.2 [] 0 [Jwt.malformed, Jwt.signed "u" 9 SECRET_KEY]
     (Jwt.signed "u" 9 SECRET_KEY) ⟨"u", 9⟩ "org1" "chat1" rfl rfl⟩

/-- Claim C4: a connect attempt whose token field splits into a scheme
word followed by a token signed with the server secret and not yet
expired is accepted, and the session store binds the connection id to
that token; a connect attempt with a missing auth dictionary, a missing
token field, a token with no second word, a malformed second word, a
wrong signing key, or an expired token is refused with the state (in
particular the session store) unchanged. -/
theorem c4_connect_auth (now : Int) (st : ServerState) (sid : String) :
    (∀ (scheme : Jwt) (sub : String) (e : Int) (rest : List Jwt), now < e →
        connect now st sid (some ⟨some (scheme :: Jwt.signed sub e SECRET_KEY :: rest)⟩)
          = ({ st with
                sessions := aSet st.sessions sid (Jwt.signed sub e SECRET_KEY)
                connected := if sid ∈ st.connected then st.connected
                             else st.connected ++ [sid] }, true)) ∧
    (connect now st sid none = (st, false)) ∧
    (connect now st sid (some ⟨none⟩) = (st, false)) ∧
    (∀ w : Jwt, connect now st sid (some ⟨some [w]⟩) = (st, false)) ∧
    (∀ (scheme : Jwt) (rest : List Jwt),
        connect now st sid (some ⟨some (scheme :: Jwt.malformed :: rest)⟩)
          = (st, false)) ∧
    (∀ (scheme : Jwt) (sub key : String) (e : Int) (rest : List Jwt),
        key ≠ SECRET_KEY →
        connect now st sid (some ⟨some (scheme :: Jwt.signed sub e key :: rest)⟩)
          = (st, false)) ∧
    (∀ (scheme : Jwt) (sub : String) (e : Int) (rest : List Jwt), e ≤ now →
        connect now st sid (some ⟨some (scheme :: Jwt.signed sub e SECRET_KEY :: rest)⟩)
          = (st, false)) := by
  refine ⟨?_, rfl, rfl, ?_, ?_, ?_, ?_⟩
  · intro scheme sub e rest h
    simp [connect, decode_jwt_token, not_le.mpr h]
  · intro w
    rfl
  · intro scheme rest
    simp [connect, decode_jwt_token]
  · intro scheme sub key e rest h
    simp [connect, decode_jwt_token, h]
  · intro scheme sub e rest h
    simp [connect, decode_jwt_token, h]

/-- Concrete instantiation of the connect theorem: an accepted fresh
token and a refused expired token. -/
theorem c4_witness :
    ((0 : Int) < 1 ∧
      connect 0 initialState "s1"
          (some ⟨some [Jwt.malformed, Jwt.signed "u" 1 SECRET_KEY]⟩)
        = ({ initialState with
              sessions := aSet initialState.sessions "s1" (Jwt.signed "u" 1 SECRET_KEY)
              connected := if "s1" ∈ initialState.connected then initialState.connected
                           else initialState.connected ++ ["s1"] }, true)) ∧
    ((1 : Int) ≤ 1 ∧
      connect 1 initialState "s1"
          (some ⟨some [Jwt.malformed, Jwt.signed "u" 1 SECRET_KEY]⟩)
        = (initialState, false)) :=
  ⟨⟨by decide, (c4_connect_auth 0 initialState "s1").1 Jwt.malformed "u" 1 [] (by decide)⟩,
   ⟨by decide,
    (c4_connect_auth 1 initialState "s1").2.2.2.2.2.2 Jwt.malformed "u" 1 [] (by decide)⟩⟩

theorem enter_room_idem (rooms : List (String × List String)) (sid room : String) :
    enter_room (enter_room rooms sid room) sid room = enter_room rooms sid room := by
  unfold enter_room
  by_cases h : sid ∈ (aGet rooms room).getD []
  · have hget : aGet (aSet rooms room ((aGet rooms room).getD [])) room
        = some ((aGet rooms room).getD []) := by rw [aGet_aSet]; simp
    simp only [if_pos h, hget, Option.getD_some, if_pos h]
    exact aSet_eq_of_aGet hget
  · have hget : aGet (aSet rooms room ((aGet rooms room).getD [] ++ [sid])) room
        = some ((aGet rooms room).getD [] ++ [sid]) := by rw [aGet_aSet]; simp
    have hmem : sid ∈ (aGet rooms room).getD [] ++ [sid] := by simp
    simp only [if_neg h, hget, Option.getD_some, if_pos hmem]
    exact aSet_eq_of_aGet hget

theorem canEnsure_idem (c : CanSt) (org chat : Option String) :
    canEnsure (canEnsure c org chat) org chat = canEnsure c org chat := by
  obtain ⟨chats1, msgs1, hg, hgc⟩ := canEnsure_get c org chat
  set c2 := canEnsure c org chat with hc2
  unfold canEnsure
  simp [hg, hgc]

/-- Claim C8: from a reachable (canonically shaped) state, when a first
`join_room` succeeds, repeating the same join succeeds and returns the
very same state: the room membership (in particular its size) and the
whole message store are unchanged, no message list is reset, and the
duplicate join does not fail. -/
theorem c8_join_idempotent (st : ServerState) (c : CanSt) (sid : String)
    (d : EventData) (st2 : ServerState)
    (hwf : st.store = reify c)
    (h : join_room st sid (some d) = .ok st2) :
    join_room st2 sid (some d) = .ok st2 := by
  have hrun : join_room st sid (some d)
      = .ok { st with
              rooms := enter_room st.rooms sid (room_id d.organizationId d.chatId)
              store := reify (canEnsure c d.organizationId d.chatId) } := by
    unfold join_room
    rw [hwf]
    simp [bind, Except.bind, ensureRoom_reify, pure, Except.pure]
  rw [hrun] at h
  injection h with h
  subst h
  unfold join_room
  simp [bind, Except.bind, ensureRoom_reify, canEnsure_idem, pure, Except.pure,
    enter_room_idem]

/-- Concrete instantiation of join idempotence: after "s1" joins
(org1, chat1) from the initial state, the same join leaves the state
untouched. -/
theorem c8_witness :
    join_room
        { store := [(some "org1", Val.pyDict [(some "chats", Val.pyDict
            [(some "chat1", Val.pyDict [(some "messages", Val.pyList [])])])])]
          sessions := []
          rooms := [("org1:chat1", ["s1"])]
          connected := [] } "s1"
        (some ⟨some "org1", some "chat1", none, none⟩)
      = .ok
        { store := [(some "org1", Val.pyDict [(some "chats", Val.pyDict
            [(some "chat1", Val.pyDict [(some "messages", Val.pyList [])])])])]
          sessions := []
          rooms := [("org1:chat1", ["s1"])]
          connected := [] } :=
  c8_join_idempotent initialState [] "s1" ⟨some "org1", some "chat1", none, none⟩
    _ rfl rfl

/-- The message dictionary appended by a `chat_message` at instant 0
with text "hi" and sender "A". -/
def c3Msg : Val :=
  .pyDict [(some "text", .pyStr "hi"), (some "sender", .pyStr "A"),
           (some "timestamp", .pyInt 0)]

/-- The store after that message arrives with organizationId and chatId
both absent: a room keyed by (None, None). -/
def c3Store : PyDict :=
  [(none, .pyDict [(some "chats",
      .pyDict [(none, .pyDict [(some "messages", .pyList [c3Msg])])])])]

/-- Claim C3 is false on the code: a `chat_message` whose payload
dictionary has neither organizationId nor chatId does not fail with a
bad-request condition and does append an entry to a room log — the
handler succeeds, creates the room keyed (None, None), stores the
message there and broadcasts to room "None:None" (empty here). -/
theorem c3_counterexample :
    chat_message 0 initialState (some ⟨none, none, some "hi", some "A"⟩)
        (fun _ => false)
      = .ok ({ initialState with store := c3Store }, c3Msg, []) ∧
    msgsAt c3Store none none = [c3Msg] :=
  ⟨rfl, rfl⟩

/-- Claim C3 as amended: on a reachable (canonically shaped) state, a
`chat_message` whose payload dictionary lacks organizationId and chatId
is processed normally with the Python None values: the handler reports
no bad request, appends the message dictionary to the room keyed
(None, None) and broadcasts it to room "None:None"; only a payload that
is not a dictionary at all raises (AttributeError on `data.get`), and
then nothing is appended and nothing is reported to the sender either. -/
theorem c3_amended (now : Int) (st : ServerState) (c : CanSt)
    (msg snd : Option String) (fails : String → Bool)
    (hwf : st.store = reify c) :
    (∃ st2 deliveries,
        chat_message now st (some ⟨none, none, msg, snd⟩) fails
          = .ok (st2, (mkChatMessage now msg snd none).to_dict, deliveries) ∧
        st2.rooms = st.rooms ∧
        deliveries = publish ((aGet st.rooms (room_id none none)).getD []) fails ∧
        msgsAt st2.store none none
          = msgsAt st.store none none ++ [(mkChatMessage now msg snd none).to_dict]) ∧
    chat_message now st none fails = .error .attrError := by
  constructor
  · refine ⟨{ st with store := reify (canMsgStep now c ⟨none, none, msg, snd⟩) },
      publish ((aGet st.rooms (room_id none none)).getD []) fails, ?_, rfl, rfl, ?_⟩
    · unfold chat_message
      rw [hwf]
      simp [bind, Except.bind, chat_message_store_reify, pure, Except.pure]
    · show msgsAt (reify (canMsgStep now c ⟨none, none, msg, snd⟩)) none none = _
      rw [hwf, msgsAt_reify, msgsAt_reify, canMsgs_canMsgStep]
      simp
  · rfl

/-- Concrete instantiation of the amended claim C3 at the initial
state. -/
theorem c3_witness :
    (∃ st2 deliveries,
        chat_message 0 initialState (some ⟨none, none, some "hi", some "A"⟩)
            (fun _ => false)
          = .ok (st2, (mkChatMessage 0 (some "hi") (some "A") none).to_dict,
                 deliveries) ∧
        st2.rooms = initialState.rooms ∧
        deliveries = publish ((aGet initialState.rooms (room_id none none)).getD [])
            (fun _ => false) ∧
        msgsAt st2.store none none
          = msgsAt initialState.store none none
              ++ [(mkChatMessage 0 (some "hi") (some "A") none).to_dict]) ∧
    chat_message 0 initialState none (fun _ => false) = .error .attrError :=
  c3_amended 0 initialState [] (some "hi") (some "A") (fun _ => false) rfl

/-- Projection of a `chat_message` handler result that forgets the
delivery outcomes: what the handler itself observes and returns. -/
def handlerView (r : Except PyErr (ServerState × Val × List (String × Bool))) :
    Except PyErr (ServerState × Val) :=
  r.map (fun x => (x.1, x.2.1))

/-- Claim C5: publishing to a room whose membership currently has N
connections makes exactly N delivery attempts, one per member in
membership order (hence one to the originating connection whenever it
is a member); which individual deliveries fail changes no attempt to
the other members, and the handler outcome (new state, stored message,
success) is entirely independent of delivery failures, so nothing is
surfaced to the publisher. -/
theorem c5_broadcast_fanout (members : List String) (sender : String)
    (fails fl2 : String → Bool) :
    (publish members fails).length = members.length ∧
    (publish members fails).map Prod.fst = members ∧
    (sender ∈ members → (sender, ! fails sender) ∈ publish members fails) ∧
    (∀ (now : Int) (st : ServerState) (data : Option EventData),
        handlerView (chat_message now st data fails)
          = handlerView (chat_message now st data fl2)) := by
  have hmap : ∀ l : List String, (publish l fails).map Prod.fst = l := by
    intro l
    induction l with
    | nil => rfl
    | cons a rest ih =>
        simp only [publish, List.map_cons] at ih ⊢
        rw [ih]
  have hlen : (publish members fails).length = members.length := by
    simp [publish]
  refine ⟨hlen, hmap members, fun h => ?_, ?_⟩
  · exact List.mem_map_of_mem (fun conn => (conn, ! fails conn)) h
  · intro now st data
    cases data with
    | none => rfl
    | some d =>
        unfold chat_message handlerView
        simp only [bind, Except.bind]
        cases chat_message_store now st.store d with
        | error e => rfl
        | ok r => rfl

/-- Concrete instantiation of the fan-out theorem: two members, a
failing delivery to "a", none of which affects the attempt to "s" or
the handler result. -/
theorem c5_witness :
    (publish ["a", "s"] (fun conn => conn == "a")).length = 2 ∧
    ("s", ! (("s" : String) == "a")) ∈ publish ["a", "s"] (fun conn => conn == "a") ∧
    handlerView (chat_message 3 initialState
        (some ⟨some "o", some "c", some "m", some "snd"⟩) (fun conn => conn == "a"))
      = handlerView (chat_message 3 initialState
        (some ⟨some "o", some "c", some "m", some "snd"⟩) (fun _ => false)) := by
  have h := c5_broadcast_fanout ["a", "s"] "s" (fun conn => conn == "a") (fun _ => false)
  exact ⟨h.1, h.2.2.1 (by simp), h.2.2.2 3 initialState _⟩

/-- Claim C6: with passing authentication, `get_chat` on a room that
has no record (organization unknown, or known with that chat unknown)
returns `{"messages": []}` rather than an error, and `get_organization`
on an unknown organization returns `{"chats": {}}` rather than an
error, on any reachable (canonically shaped) store. -/
theorem c6_unknown_returns_empty (now : Int) (c : CanSt) (words : List Jwt)
    (tok : Jwt) (p : Claims)
    (h1 : words[1]? = some tok) (h2 : decode_jwt_token now tok = some p) :
    (∀ org chat : String,
        (match aGet c (some org) with
         | some chats => aGet chats (some chat) = none
         | none => True) →
        get_chat now (reify c) (some words) org chat
          = .ok (.pyDict [(some "messages", .pyList [])])) ∧
    (∀ org : String, aGet c (some org) = none →
        get_organization now (reify c) (some words) org
          = .ok (.pyDict [(some "chats", .pyDict [])])) := by
  constructor
  · intro org chat hroom
    cases hg : aGet c (some org) with
    | none =>
        have hgr : aGet (reify c) (some org) = none := by rw [aGet_reify, hg]; rfl
        simp [get_chat, h1, h2, hgr]
    | some chats =>
        rw [hg] at hroom
        have hgr : aGet (reify c) (some org) = some (reifyOrg chats) := by
          rw [aGet_reify, hg]; rfl
        have hcm : aGet (chats.map (fun kv => (kv.1, reifyChat kv.2))) (some chat)
            = none := by rw [aGet_map, hroom]; rfl
        simp [get_chat, h1, h2, hgr, reifyOrg, pyIndex, aGet, pyContains, hcm]
  · intro org hg
    have hgr : aGet (reify c) (some org) = none := by rw [aGet_reify, hg]; rfl
    simp [get_organization, h1, h2, hgr]

/-- Canonical store for the C6 instantiation: org1 has an empty chat1
room and nothing else. -/
def c6Store : CanSt := [(some "org1", [(some "chat1", [])])]

/-- Concrete instantiation of the empty-read theorem: a known
organization with an unknown chat, and an unknown organization. -/
theorem c6_witness :
    get_chat 0 (reify c6Store)
        (some [Jwt.malformed, Jwt.signed "u" 9 SECRET_KEY]) "org1" "chat2"
      = .ok (.pyDict [(some "messages", .pyList [])]) ∧
    get_organization 0 (reify c6Store)
        (some [Jwt.malformed, Jwt.signed "u" 9 SECRET_KEY]) "org2"
      = .ok (.pyDict [(some "chats", .pyDict [])]) := by
  have h := c6_unknown_returns_empty 0 c6Store
    [Jwt.malformed, Jwt.signed "u" 9 SECRET_KEY]
    (Jwt.signed "u" 9 SECRET_KEY) ⟨"u", 9⟩ rfl rfl
  exact ⟨h.1 "org1" "chat2" rfl, h.2 "org2" rfl⟩

/-- Claim C7 is false on the code as stated: an Authorization header
whose value has no second space-split word (for example a bare token
with no scheme) makes `token.split(" ")[1]` raise IndexError outside
any try block, which escapes the handler as a 500-class failure rather
than the claimed 401-equivalent authentication error. -/
theorem c7_counterexample :
    get_chat 0 [] (some [Jwt.malformed]) "org1" "chat1" = .raised .indexError ∧
    get_organization 0 [] (some [Jwt.malformed]) "org1" = .raised .indexError :=
  ⟨rfl, rfl⟩

/-- Claim C7 as amended: a missing (or empty) Authorization header
yields HTTP 401 "Token not found", and a header whose second space-split
word fails token validation yields HTTP 401 "Invalid token", in both
endpoints; a header without a second word instead raises an uncaught
IndexError (500-equivalent).  In every one of these cases the result is
a constant independent of the store, so the failure happens before any
core state is consulted. -/
theorem c7_auth_failures (now : Int) (st : PyDict) (org chat : String) :
    (get_chat now st none org chat = .httpError 401 "Token not found") ∧
    (get_organization now st none org = .httpError 401 "Token not found") ∧
    (∀ (words : List Jwt) (tok : Jwt),
        words[1]? = some tok → decode_jwt_token now tok = none →
        get_chat now st (some words) org chat = .httpError 401 "Invalid token" ∧
        get_organization now st (some words) org
          = .httpError 401 "Invalid token") ∧
    (∀ words : List Jwt, words[1]? = none →
        get_chat now st (some words) org chat = .raised .indexError ∧
        get_organization now st (some words) org = .raised .indexError) := by
  refine ⟨rfl, rfl, ?_, ?_⟩
  · intro words tok h1 h2
    constructor
    · simp [get_chat, h1, h2]
    · simp [get_organization, h1, h2]
  · intro words h1
    constructor
    · simp [get_chat, h1]
    · simp [get_organization, h1]

/-- Concrete instantiation of the amended claim C7, on a store holding
a deliberately malformed organization entry that is never reached. -/
theorem c7_witness :
    get_chat 5 [(some "o", Val.pyNone)] (some [Jwt.malformed, Jwt.malformed]) "o" "c"
      = .httpError 401 "Invalid token" ∧
    get_chat 5 [(some "o", Val.pyNone)] (some [Jwt.malformed]) "o" "c"
      = .raised .indexError :=
  ⟨((c7_auth_failures 5 [(some "o", Val.pyNone)] "o" "c").2.2.1
      [Jwt.malformed, Jwt.malformed] Jwt.malformed rfl rfl).1,
   ((c7_auth_failures 5 [(some "o", Val.pyNone)] "o" "c").2.2.2
      [Jwt.malformed] rfl).1⟩

/-- Claim C9 is false on the code as stated: the caller-supplied
timestamp 0 (a legitimate integer instant) is not stored; the Python
`or` in `timestamp or int(...)` treats 0 as falsy, so the field becomes
the creation time 999 instead of the supplied 0. -/
theorem c9_counterexample :
    (mkChatMessage 999 (some "hi") (some "A") (some 0)).timestamp = 999 ∧
    ¬ (mkChatMessage 999 (some "hi") (some "A") (some 0)).timestamp = 0 :=
  ⟨rfl, by decide⟩

/-- Claim C9 as amended: the stored timestamp equals the caller-supplied
timestamp whenever a nonzero one is supplied, and defaults to the
creation instant both when the caller supplies none and when the caller
supplies the falsy value 0.  (The record itself is immutable: no code
writes to a ChatMessage after `__init__`, and the stored dictionary is
built once by `to_dict`.) -/
theorem c9_timestamp_default (now t : Int) (text snd : Option String) :
    (t ≠ 0 → (mkChatMessage now text snd (some t)).timestamp = t) ∧
    ((mkChatMessage now text snd none).timestamp = now) ∧
    ((mkChatMessage now text snd (some 0)).timestamp = now) := by
  refine ⟨fun h => ?_, rfl, rfl⟩
  simp [mkChatMessage, h]

/-- Concrete instantiation of the timestamp rule. -/
theorem c9_witness :
    (7 : Int) ≠ 0 ∧
    (mkChatMessage 3 (some "x") (some "y") (some 7)).timestamp = 7 ∧
    (mkChatMessage 3 (some "x") (some "y") none).timestamp = 3 :=
  ⟨by decide, (c9_timestamp_default 3 7 (some "x") (some "y")).1 (by decide),
   (c9_timestamp_default 3 7 (some "x") (some "y")).2.1⟩

end WsChat
